import Mathlib

/-!
Verification of the NFL pick'em "Pick Eligibility & Standings Engine"
against a shallow embedding of the repository's Python sources.

Each definition mirrors one function / model of the repository:
  * `Game`, `Pick`, `Season`, `RegularSeasonSnapshot` — the SQLAlchemy models
    (`app/models/game.py`, `pick.py`, `season.py`, `regular_season_snapshot.py`);
    machine floats used for points are represented by `ℚ` (all values that
    occur — 0, 0.5, 1.0 and integer margins — are exact in IEEE doubles,
    so the rational embedding is faithful), optional columns by `Option`,
    and the wall-clock comparison `Game.has_started()` by a boolean field.
  * query-layer functions become functions over explicit lists of rows;
    SQL `first()` becomes `List.find?` / `List.head?` over the row list.
-/

namespace Pickem

/-- `app/models/game.py` — the `games` row.  Scores are modelled as present
integers (the claims below only inspect finalized games, where the
synchronizer has written both scores); the start-time comparison of
`Game.has_started()` is abstracted into the boolean `has_started`. -/
structure Game where
  id : Nat
  season_id : Nat
  week : Nat
  home_team_id : Nat
  away_team_id : Nat
  home_score : Int
  away_score : Int
  is_final : Bool
  has_started : Bool
  deriving Repr, DecidableEq

/-- `Game.winning_team` property: `None` if not final or scores equal,
else the team with the larger score. -/
def Game.winning_team_id (g : Game) : Option Nat :=
  if ¬ g.is_final ∨ g.home_score = g.away_score then none
  else if g.home_score > g.away_score then some g.home_team_id
  else some g.away_team_id

/-- `Game.is_tie` property: final and scores equal. -/
def Game.is_tie (g : Game) : Bool :=
  g.is_final && g.home_score == g.away_score

/-- `Game.margin_of_victory` property: `None` if not final, else the
absolute score difference. -/
def Game.margin_of_victory (g : Game) : Option Int :=
  if ¬ g.is_final then none else some |g.home_score - g.away_score|

/-- `Game.is_pickable()`: not started and not final. -/
def Game.is_pickable (g : Game) : Bool :=
  !g.has_started && !g.is_final

/-- `Game.status` property (time comparison abstracted by `has_started`). -/
def Game.game_status (g : Game) : String :=
  if g.is_final then "completed"
  else if g.has_started then "in_progress"
  else "scheduled"

/-- `app/models/pick.py` — the `picks` row.  `is_correct` is the nullable
boolean outcome column; `points_earned` and `tiebreaker_points` are the
float result columns. -/
structure Pick where
  id : Nat
  user_id : Nat
  game_id : Nat
  season_id : Nat
  group_id : Option Nat
  selected_team_id : Nat
  is_correct : Option Bool
  points_earned : ℚ
  tiebreaker_points : ℚ
  deriving Repr, DecidableEq

/-- `app/models/season.py` — the fields of the `seasons` row used by the
validator. -/
structure Season where
  id : Nat
  regular_season_weeks : Nat
  deriving Repr, DecidableEq

/-- `Season.is_playoff_week(week)`: `week > self.regular_season_weeks`. -/
def Season.is_playoff_week (s : Season) (week : Nat) : Bool :=
  week > s.regular_season_weeks

/-- `ScoringEngine.calculate_pick_score` (`app/utils/scoring.py`); the
pick's lazily-loaded `pick.game` relationship is passed explicitly.
`regular_season_points = 1`, ties score `1 / 2.0`. -/
def calculate_pick_score (game : Option Game) (p : Pick) : ℚ :=
  match game with
  | none => 0
  | some g =>
    if ¬ g.is_final then 0
    else if g.is_tie then 1 / 2
    else
      match g.winning_team_id with
      | none => 0
      | some w => if p.selected_team_id = w then 1 else 0

/-- `Pick.update_result` (`app/models/pick.py`): fills in
`is_correct` / `points_earned` / `tiebreaker_points` once the game is
final.  The `self.game` relationship (after the null-check reload) is the
explicit `game` argument. -/
def Pick.update_result (game : Option Game) (p : Pick) : Pick :=
  match game with
  | none => p
  | some g =>
    if ¬ g.is_final then p
    else if g.is_tie then
      { p with is_correct := none
               points_earned := calculate_pick_score (some g) p
               tiebreaker_points := 0 }
    else
      let correct : Bool :=
        match g.winning_team_id with
        | some w => p.selected_team_id == w
        | none => false
      let margin : Int := (g.margin_of_victory).getD 0
      if correct then
        { p with is_correct := some true
                 points_earned := calculate_pick_score (some g) p
                 tiebreaker_points := (margin : ℚ) }
      else
        { p with is_correct := some false
                 points_earned := 0
                 tiebreaker_points := -(margin : ℚ) }

end Pickem

namespace Pickem

/-- C1.  Scoring a pick on a finalized contest: ties give
(`is_correct = none`, 0.5 points, 0 tiebreak); a pick of the winning team
gives (`some true`, 1.0, +margin); any other pick gives
(`some false`, 0.0, −margin), where margin is the absolute score
difference. -/
theorem update_result_spec (g : Game) (p : Pick) (hf : g.is_final = true) :
    (g.is_tie = true →
      (p.update_result (some g)).is_correct = none ∧
      (p.update_result (some g)).points_earned = 1 / 2 ∧
      (p.update_result (some g)).tiebreaker_points = 0) ∧
    (g.is_tie = false → g.winning_team_id = some p.selected_team_id →
      (p.update_result (some g)).is_correct = some true ∧
      (p.update_result (some g)).points_earned = 1 ∧
      (p.update_result (some g)).tiebreaker_points = |g.home_score - g.away_score|) ∧
    (g.is_tie = false → g.winning_team_id ≠ some p.selected_team_id →
      (p.update_result (some g)).is_correct = some false ∧
      (p.update_result (some g)).points_earned = 0 ∧
      (p.update_result (some g)).tiebreaker_points = -|g.home_score - g.away_score|) := by
  have hscores : (g.home_score = g.away_score) ↔ g.is_tie = true := by
    simp [Game.is_tie, hf]
  refine ⟨fun ht => ?_, fun ht hw => ?_, fun ht hw => ?_⟩
  · simp [Pick.update_result, hf, ht, calculate_pick_score]
  · have hne : ¬ g.home_score = g.away_score := fun h => by
      rw [hscores] at h; exact absurd ht (by simp [h])
    have hmargin : g.margin_of_victory = some |g.home_score - g.away_score| := by
      simp [Game.margin_of_victory, hf]
    simp only [Pick.update_result, hf, ht, calculate_pick_score]
    simp only [hw, hmargin]
    simp [hf, ht]
  · have hne : ¬ g.home_score = g.away_score := fun h => by
      rw [hscores] at h; exact absurd ht (by simp [h])
    have hw' : ∃ w, g.winning_team_id = some w ∧ w ≠ p.selected_team_id := by
      unfold Game.winning_team_id
      simp only [hf, hne]
      by_cases hgt : g.home_score > g.away_score
      · refine ⟨g.home_team_id, by simp [hgt], fun h => hw ?_⟩
        unfold Game.winning_team_id; simp [hf, hne, hgt, h]
      · refine ⟨g.away_team_id, by simp [hgt], fun h => hw ?_⟩
        unfold Game.winning_team_id; simp [hf, hne, hgt, h]
    obtain ⟨w, hww, hwne⟩ := hw'
    have hmargin : g.margin_of_victory = some |g.home_score - g.away_score| := by
      simp [Game.margin_of_victory, hf]
    simp only [Pick.update_result, hf, ht, hww, hmargin]
    have : (p.selected_team_id == w) = false := by
      simp [Ne.symm hwne]
    simp [this, hf, ht]

/-- C1 witness: a concrete final 27–17 game, a winning pick. -/
theorem update_result_spec_witness :
    let g : Game := ⟨1, 1, 3, 10, 11, 27, 17, true, true⟩
    let p : Pick := ⟨5, 7, 1, 1, none, 10, none, 0, 0⟩
    g.is_tie = false ∧ g.winning_team_id = some p.selected_team_id ∧
    (p.update_result (some g)).is_correct = some true ∧
    (p.update_result (some g)).points_earned = 1 ∧
    (p.update_result (some g)).tiebreaker_points = 10 := by
  intro g p
  have h := (update_result_spec g p (by decide)).2.1 (by decide) (by decide)
  refine ⟨by decide, by decide, h.1, h.2.1, ?_⟩
  rw [h.2.2]; decide

/-- C10.  `update_result` on a pick whose game cannot be loaded or whose
game is not final changes nothing: the pick is returned unchanged. -/
theorem update_result_frame (game : Option Game) (p : Pick)
    (h : game = none ∨ ∃ g, game = some g ∧ g.is_final = false) :
    p.update_result game = p := by
  rcases h with h | ⟨g, hg, hfin⟩
  · simp [Pick.update_result, h]
  · simp [Pick.update_result, hg, hfin]

/-- C10 witness: an unfinished game leaves a concrete pick untouched. -/
theorem update_result_frame_witness :
    let g : Game := ⟨2, 1, 4, 10, 11, 3, 7, false, true⟩
    let p : Pick := ⟨6, 7, 2, 1, none, 11, some true, 1, 4⟩
    p.update_result (some g) = p :=
  update_result_frame (some ⟨2, 1, 4, 10, 11, 3, 7, false, true⟩)
    ⟨6, 7, 2, 1, none, 11, some true, 1, 4⟩ (Or.inr ⟨_, rfl, rfl⟩)

/-- `Game.query.get(game_id)` over an explicit game table. -/
def findGame (games : List Game) (gid : Nat) : Option Game :=
  games.find? (fun g => g.id == gid)

/-- The week of a pick's game, as produced by the SQL join `Pick ⋈ Game`
(`none` when the join finds no game row, in which case the joined query
drops the pick). -/
def weekOf (games : List Game) (p : Pick) : Option Nat :=
  (findGame games p.game_id).map Game.week

/-- The fields of `app/models/user.py`'s `users` row consulted by the
validator: the id and the `picks_are_global` pool-scope preference. -/
structure UserRec where
  id : Nat
  picks_are_global : Bool
  deriving Repr, DecidableEq

/-- `if exclude_pick_id: filter.append(Pick.id != exclude_pick_id)` —
the pick excluded from historical-rule lookups when updating. -/
def excludeOk (exclude_pick_id : Option Nat) (p : Pick) : Bool :=
  match exclude_pick_id with
  | none => true
  | some e => p.id != e

/-- The pool-scope branch of `User.can_pick_team`'s pick filter:
global streams look only at `group_id IS NULL` picks, per-group streams
only at the given group's picks. -/
def scopeFilter (u : UserRec) (group_id : Option Nat) (p : Pick) : Bool :=
  if u.picks_are_global then p.group_id == none else p.group_id == group_id

/-- The base pick filter shared by `User.can_pick_team`'s rules and the
route-level opponent check: this user, this season, this pool-scope,
minus the excluded pick. -/
def pickBaseFilter (u : UserRec) (season_id : Nat)
    (group_id exclude_pick_id : Option Nat) (p : Pick) : Bool :=
  p.user_id == u.id && p.season_id == season_id &&
    scopeFilter u group_id p && excludeOk exclude_pick_id p

def losingTeamMsg : String := "Cannot pick losing team from previous game week"

/-- `User.can_pick_team` (`app/models/user.py`): rule "team already used
this season" (outside playoff weeks) then rule "losing team of the
previous game week may not repeat".  The third, repeat-opponent rule in
the source body is dead code (`pass`) and contributes nothing.  Queries
run over the explicit row lists. -/
def can_pick_team (seasons : List Season) (games : List Game) (store : List Pick)
    (u : UserRec) (team_id week season_id : Nat)
    (group_id exclude_pick_id : Option Nat) : Bool × String :=
  match seasons.find? (fun s => s.id == season_id) with
  | none => (false, "Invalid season")
  | some season =>
    if !season.is_playoff_week week &&
        ((store.filter (pickBaseFilter u season_id group_id exclude_pick_id)).map
          Pick.selected_team_id).contains team_id then
      (false, "Team already used this season")
    else if week > 1 then
      match (store.filter (fun p =>
          pickBaseFilter u season_id group_id exclude_pick_id p &&
          weekOf games p == some (week - 1))).head? with
      | some prev =>
        if prev.is_correct == some false && prev.selected_team_id == team_id then
          (false, losingTeamMsg)
        else (true, "Team available")
      | none => (true, "Team available")
    else (true, "Team available")

/-- Filter of the route's `existing_pick` query
(`_process_single_pick`, `app/routes/main/routes.py`): same user, same
game, same (resolved) group. -/
def epredFilter (u : UserRec) (game_id : Nat) (group_id : Option Nat)
    (p : Pick) : Bool :=
  p.user_id == u.id && p.game_id == game_id && p.group_id == group_id

/-- Filter of the route's `existing_week_pick` query: same user, current
season, same week (via the game join), a different game, same group. -/
def wpredFilter (games : List Game) (u : UserRec) (season_id week game_id : Nat)
    (group_id : Option Nat) (p : Pick) : Bool :=
  p.user_id == u.id && p.season_id == season_id &&
    weekOf games p == some week && p.game_id != game_id &&
    p.group_id == group_id

def consecutiveMsg : String :=
  "Cannot pick this game: opponent involved in previous week pick"

/-- The route-level "no immediate repeat opponent" check of
`_process_single_pick` (lines 453–491): outside playoff weeks, in week
> 1, take the opponent of the *newly chosen* team in the proposed game
and deny when that opponent was involved (as either side) in the game of
the user's previous-week pick.  (`Season.query.get(current_season.id)`
re-fetches the season already in hand, so the season value is passed
directly.) -/
def opponentRuleDenies (games : List Game) (store : List Pick) (u : UserRec)
    (season : Season) (game : Game) (team_id : Nat)
    (group_id exclude_pick_id : Option Nat) : Bool :=
  if !season.is_playoff_week game.week then
    let opponent_id :=
      if team_id == game.away_team_id then game.home_team_id else game.away_team_id
    if game.week > 1 then
      match (store.filter (fun p =>
          pickBaseFilter u season.id group_id exclude_pick_id p &&
          weekOf games p == some (game.week - 1))).head? with
      | some prev =>
        match findGame games prev.game_id with
        | some prev_game =>
          opponent_id == prev_game.home_team_id ||
            opponent_id == prev_game.away_team_id
        | none => false
      | none => false
    else false
  else false

/-- A freshly created `Pick` row (`Pick(...)` constructor in the route):
result columns at their defaults (`is_correct` NULL, 0.0 points, 0.0
tiebreaker). -/
def newPick (next_id : Nat) (u : UserRec) (game_id season_id team_id : Nat)
    (group_id : Option Nat) : Pick :=
  ⟨next_id, u.id, game_id, season_id, group_id, team_id, none, 0, 0⟩

/-- `existing_week_pick.game.has_started()` via the game table. -/
def gameHasStarted (games : List Game) (p : Pick) : Bool :=
  match findGame games p.game_id with
  | some g => g.has_started
  | none => false

/-- The tail of `_process_single_pick` after validation: update the
same-game pick if one exists, otherwise create a new row. -/
def finish_transition (store : List Pick) (u : UserRec)
    (game_id team_id season_id next_id : Nat) (group_id : Option Nat)
    (existing_pick : Option Pick) : (Bool × String) × List Pick :=
  match existing_pick with
  | some e =>
    ((true, "Pick updated"),
      store.map (fun p =>
        if p.id == e.id then
          { p with selected_team_id := team_id
                   game_id := game_id
                   group_id := group_id }
        else p))
  | none =>
    ((true, "Pick created"),
      store ++ [newPick next_id u game_id season_id team_id group_id])

/-- Lines 493–530 of `_process_single_pick`: delete the other-game pick
of the same week — but only when the caller is *not* an admin
(`if existing_week_pick and not is_admin`) — then update or create. -/
def apply_pick_transition (games : List Game) (store : List Pick) (u : UserRec)
    (game_id team_id season_id : Nat) (group_id : Option Nat)
    (is_admin : Bool) (next_id : Nat)
    (existing_pick existing_week_pick : Option Pick) :
    (Bool × String) × List Pick :=
  match existing_week_pick with
  | some r =>
    if !is_admin then
      if gameHasStarted games r then
        ((false, "Cannot switch pick: current pick has already started"), store)
      else
        finish_transition (store.filter (fun p => p.id != r.id)) u
          game_id team_id season_id next_id group_id existing_pick
    else
      finish_transition store u game_id team_id season_id next_id group_id
        existing_pick
  | none =>
    finish_transition store u game_id team_id season_id next_id group_id
      existing_pick

/-- `_process_single_pick` (`app/routes/main/routes.py`): resolve the
pool-scope, load and sanity-check the game, run `can_pick_team` plus the
opponent check unless the caller is an admin, then perform the
supersede/update/create transition on the pick store.  Deny messages are
the source's messages with their interpolated names dropped. -/
def process_single_pick (seasons : List Season) (games : List Game)
    (store : List Pick) (u : UserRec) (game_id team_id : Nat) (season : Season)
    (is_admin : Bool) (current_group : Option Nat) (next_id : Nat) :
    (Bool × String) × List Pick :=
  let group_id := if u.picks_are_global then none else current_group
  match findGame games game_id with
  | none => ((false, "Game not found"), store)
  | some game =>
    if game.season_id != season.id then
      ((false, "Game does not belong to current season"), store)
    else if team_id != game.home_team_id && team_id != game.away_team_id then
      ((false, "Team is not playing in this game"), store)
    else if !is_admin && !game.is_pickable then
      ((false, "Game no longer available for picks"), store)
    else
      let existing_pick := store.find? (epredFilter u game_id group_id)
      let existing_week_pick :=
        store.find? (wpredFilter games u season.id game.week game_id group_id)
      let exclude_pick_id :=
        match existing_pick with
        | some e => some e.id
        | none => existing_week_pick.map Pick.id
      if !is_admin then
        let cpt := can_pick_team seasons games store u team_id game.week
          season.id group_id exclude_pick_id
        if !cpt.1 then ((false, cpt.2), store)
        else if opponentRuleDenies games store u season game team_id group_id
            exclude_pick_id then
          ((false, consecutiveMsg), store)
        else
          apply_pick_transition games store u game_id team_id season.id group_id
            false next_id existing_pick existing_week_pick
      else
        apply_pick_transition games store u game_id team_id season.id group_id
          true next_id existing_pick existing_week_pick

/-- The "active pick for (picker, season, week, pool-scope)" predicate of
the §8 invariant. -/
def activePred (games : List Game) (uid sid w : Nat) (scope : Option Nat)
    (p : Pick) : Bool :=
  p.user_id == uid && p.season_id == sid && weekOf games p == some w &&
    p.group_id == scope

/-- Number of active picks a picker holds for a (season, week, scope). -/
def countActive (games : List Game) (store : List Pick) (uid sid w : Nat)
    (scope : Option Nat) : Nat :=
  (store.filter (activePred games uid sid w scope)).length

/-- C4.  In a regular-period week `w > 1`, when the previous week's pick
(same pool-scope) was scored as a loss, picking the same team again is
denied; and a previous-week pick scored as a tie (`is_correct = none`)
never triggers the losing-team denial. -/
theorem can_pick_team_losing_rule
    (seasons : List Season) (games : List Game) (store : List Pick)
    (u : UserRec) (team_id week season_id : Nat)
    (group_id exclude_pick_id : Option Nat) (season : Season) (prev : Pick)
    (hs : seasons.find? (fun s => s.id == season_id) = some season)
    (hreg : season.is_playoff_week week = false)
    (hw : week > 1)
    (hprev : (store.filter (fun p =>
        pickBaseFilter u season_id group_id exclude_pick_id p &&
        weekOf games p == some (week - 1))).head? = some prev) :
    (prev.is_correct = some false → prev.selected_team_id = team_id →
      (can_pick_team seasons games store u team_id week season_id group_id
        exclude_pick_id).1 = false) ∧
    (prev.is_correct = none →
      (can_pick_team seasons games store u team_id week season_id group_id
        exclude_pick_id).2 ≠ losingTeamMsg) := by
  constructor
  · intro h1 h2
    simp only [can_pick_team, hs]
    split
    · rfl
    · simp only [if_pos hw, hprev, h1, h2]
      simp
  · intro h1
    simp only [can_pick_team, hs]
    split
    · simp [losingTeamMsg]
    · simp only [if_pos hw, hprev, h1]
      simp [losingTeamMsg]

/-- C4 witness: a picker who lost with team 1 in week 1 is denied team 1
in week 2; a week-1 tie never yields the losing-team message. -/
theorem can_pick_team_losing_rule_witness :
    (can_pick_team [⟨1, 18⟩] [⟨1, 1, 1, 1, 2, 10, 20, true, true⟩]
      [⟨1, 7, 1, 1, none, 1, some false, 0, -10⟩] ⟨7, true⟩ 1 2 1
      none none).1 = false ∧
    (can_pick_team [⟨1, 18⟩] [⟨1, 1, 1, 1, 2, 10, 10, true, true⟩]
      [⟨1, 7, 1, 1, none, 1, none, 0, 0⟩] ⟨7, true⟩ 1 2 1
      none none).2 ≠ losingTeamMsg := by
  constructor
  · exact (can_pick_team_losing_rule [⟨1, 18⟩] [⟨1, 1, 1, 1, 2, 10, 20, true, true⟩]
      [⟨1, 7, 1, 1, none, 1, some false, 0, -10⟩] ⟨7, true⟩ 1 2 1
      none none ⟨1, 18⟩ ⟨1, 7, 1, 1, none, 1, some false, 0, -10⟩
      (by decide) (by decide) (by decide) (by decide)).1 rfl rfl
  · exact (can_pick_team_losing_rule [⟨1, 18⟩] [⟨1, 1, 1, 1, 2, 10, 10, true, true⟩]
      [⟨1, 7, 1, 1, none, 1, none, 0, 0⟩] ⟨7, true⟩ 1 2 1
      none none ⟨1, 18⟩ ⟨1, 7, 1, 1, none, 1, none, 0, 0⟩
      (by decide) (by decide) (by decide) (by decide)).2 rfl

/-- C5 counterexample: the picker chose team 1 (home) in the week-1 game
1-vs-2; team 2 — the team that opposed that selection — hosts the
proposed week-2 game 2-vs-3.  The claim demands Denied, but picking
team 2 itself is allowed: the code only compares the *new* pick's
opponent (team 3) against last week's participants. -/
theorem opponent_rule_counterexample :
    (⟨1, 7, 1, 1, none, 1, some true, 1, 10⟩ : Pick).selected_team_id =
        (⟨1, 1, 1, 1, 2, 20, 10, true, true⟩ : Game).home_team_id ∧
    (⟨1, 1, 1, 1, 2, 20, 10, true, true⟩ : Game).away_team_id =
        (⟨2, 1, 2, 2, 3, 0, 0, false, false⟩ : Game).home_team_id ∧
    Season.is_playoff_week ⟨1, 18⟩
        (⟨2, 1, 2, 2, 3, 0, 0, false, false⟩ : Game).week = false ∧
    (process_single_pick [⟨1, 18⟩]
        [⟨1, 1, 1, 1, 2, 20, 10, true, true⟩, ⟨2, 1, 2, 2, 3, 0, 0, false, false⟩]
        [⟨1, 7, 1, 1, none, 1, some true, 1, 10⟩]
        ⟨7, true⟩ 2 2 ⟨1, 18⟩ false none 2).1 = (true, "Pick created") := by
  refine ⟨rfl, rfl, rfl, ?_⟩
  rfl

/-- C5 amended.  The repeat-opponent rule as implemented: in a regular
period, week > 1, the validator denies when the opponent of the *newly
chosen* team in the proposed contest was involved (as either side) in the
game of the picker's previous-week pick — not when the previous week's
opponent appears in the new contest.  Any such submission is denied and
the store is unchanged. -/
theorem opponent_rule_amended
    (seasons : List Season) (games : List Game) (store : List Pick)
    (u : UserRec) (game_id team_id next_id : Nat)
    (current_group group_id ex : Option Nat) (season : Season)
    (game prev_game : Game) (prev : Pick)
    (hgid : group_id = if u.picks_are_global then none else current_group)
    (hgame : findGame games game_id = some game)
    (hseason : game.season_id = season.id)
    (hteam : team_id = game.home_team_id ∨ team_id = game.away_team_id)
    (hpickable : game.is_pickable = true)
    (hex : ex = (match store.find? (epredFilter u game_id group_id) with
      | some e => some e.id
      | none => (store.find? (wpredFilter games u season.id game.week game_id
          group_id)).map Pick.id))
    (hreg : season.is_playoff_week game.week = false)
    (hw : game.week > 1)
    (hprev : (store.filter (fun p =>
        pickBaseFilter u season.id group_id ex p &&
        weekOf games p == some (game.week - 1))).head? = some prev)
    (hpg : findGame games prev.game_id = some prev_game)
    (hinv : (if team_id == game.away_team_id then game.home_team_id
        else game.away_team_id) = prev_game.home_team_id ∨
      (if team_id == game.away_team_id then game.home_team_id
        else game.away_team_id) = prev_game.away_team_id) :
    ((process_single_pick seasons games store u game_id team_id season false
        current_group next_id).1).1 = false ∧
    (process_single_pick seasons games store u game_id team_id season false
        current_group next_id).2 = store := by
  have hdeny : opponentRuleDenies games store u season game team_id group_id
      ex = true := by
    unfold opponentRuleDenies
    rw [hreg]
    simp only [Bool.not_false]
    rw [if_pos trivial, if_pos hw]
    simp only [hprev, hpg]
    rcases hinv with h | h
    · rw [h]
      simp
    · rw [h]
      simp
  have hteam' : (team_id != game.home_team_id &&
      team_id != game.away_team_id) = false := by
    rcases hteam with h | h <;> simp [h]
  simp only [process_single_pick, hgame, hseason, bne_self_eq_false,
    Bool.false_eq_true, if_false, hteam', hpickable, Bool.not_true,
    Bool.false_and, Bool.not_false, Bool.true_and, if_true]
  rw [← hgid, ← hex]
  cases hcb : (can_pick_team seasons games store u team_id game.week season.id
      group_id ex).1
  · simp [hcb]
  · simp [hcb, hdeny]

/-- C5 amended witness: the picker picked team 1 against team 2 in week
1; in week 2 they propose team 4 in the game 4-vs-2 — the new pick's
opponent (team 2) played in last week's game, so the pick is denied. -/
theorem opponent_rule_amended_witness :
    ((process_single_pick [⟨1, 18⟩]
        [⟨1, 1, 1, 1, 2, 20, 10, true, true⟩, ⟨3, 1, 2, 4, 2, 0, 0, false, false⟩]
        [⟨1, 7, 1, 1, none, 1, some true, 1, 10⟩]
        ⟨7, true⟩ 3 4 ⟨1, 18⟩ false none 2).1).1 = false ∧
    (process_single_pick [⟨1, 18⟩]
        [⟨1, 1, 1, 1, 2, 20, 10, true, true⟩, ⟨3, 1, 2, 4, 2, 0, 0, false, false⟩]
        [⟨1, 7, 1, 1, none, 1, some true, 1, 10⟩]
        ⟨7, true⟩ 3 4 ⟨1, 18⟩ false none 2).2 =
      [⟨1, 7, 1, 1, none, 1, some true, 1, 10⟩] :=
  opponent_rule_amended [⟨1, 18⟩]
    [⟨1, 1, 1, 1, 2, 20, 10, true, true⟩, ⟨3, 1, 2, 4, 2, 0, 0, false, false⟩]
    [⟨1, 7, 1, 1, none, 1, some true, 1, 10⟩]
    ⟨7, true⟩ 3 4 2 none none none ⟨1, 18⟩
    ⟨3, 1, 2, 4, 2, 0, 0, false, false⟩ ⟨1, 1, 1, 1, 2, 20, 10, true, true⟩
    ⟨1, 7, 1, 1, none, 1, some true, 1, 10⟩
    (by decide) (by decide) (by decide) (Or.inl (by decide)) (by decide)
    (by decide) (by decide) (by decide) (by decide) (by decide)
    (Or.inr (by decide))

/-- C3 counterexample: the picker holds exactly one active pick for
(user 7, season 1, week 3, global scope); an administrative submission
for a *different* week-3 game creates a second active pick for the same
(picker, week, scope) — the write path does not supersede for admins and
the persistence constraint is per (user, game, group), not per week. -/
theorem active_pick_invariant_counterexample :
    countActive [⟨1, 1, 3, 1, 2, 0, 0, false, false⟩, ⟨2, 1, 3, 3, 4, 0, 0, false, false⟩]
      [⟨1, 7, 1, 1, none, 1, none, 0, 0⟩] 7 1 3 none = 1 ∧
    countActive [⟨1, 1, 3, 1, 2, 0, 0, false, false⟩, ⟨2, 1, 3, 3, 4, 0, 0, false, false⟩]
      (process_single_pick [⟨1, 18⟩]
        [⟨1, 1, 3, 1, 2, 0, 0, false, false⟩, ⟨2, 1, 3, 3, 4, 0, 0, false, false⟩]
        [⟨1, 7, 1, 1, none, 1, none, 0, 0⟩]
        ⟨7, true⟩ 2 3 ⟨1, 18⟩ true none 2).2 7 1 3 none = 2 := by
  exact ⟨rfl, rfl⟩

/-- C8 counterexample: an administrative override for a picker who
already holds a week-4 pick on game 5 writes a new pick on game 6 —
afterwards the old pick is still present (2 rows), so no
supersede-and-delete happened. -/
theorem admin_supersede_counterexample :
    (⟨3, 9, 5, 2, none, 11, none, 0, 0⟩ : Pick) ∈
      (process_single_pick [⟨2, 18⟩]
        [⟨5, 2, 4, 11, 12, 0, 0, false, false⟩, ⟨6, 2, 4, 13, 14, 0, 0, false, false⟩]
        [⟨3, 9, 5, 2, none, 11, none, 0, 0⟩]
        ⟨9, true⟩ 6 13 ⟨2, 18⟩ true none 4).2 ∧
    (process_single_pick [⟨2, 18⟩]
        [⟨5, 2, 4, 11, 12, 0, 0, false, false⟩, ⟨6, 2, 4, 13, 14, 0, 0, false, false⟩]
        [⟨3, 9, 5, 2, none, 11, none, 0, 0⟩]
        ⟨9, true⟩ 6 13 ⟨2, 18⟩ true none 4).1 = (true, "Pick created") ∧
    (process_single_pick [⟨2, 18⟩]
        [⟨5, 2, 4, 11, 12, 0, 0, false, false⟩, ⟨6, 2, 4, 13, 14, 0, 0, false, false⟩]
        [⟨3, 9, 5, 2, none, 11, none, 0, 0⟩]
        ⟨9, true⟩ 6 13 ⟨2, 18⟩ true none 4).2.length = 2 := by
  refine ⟨?_, rfl, rfl⟩
  decide

/-- C8 amended.  An administrative-override pick for a picker who already
holds an active pick for the same week and pool-scope on a different
contest does *not* supersede: the existing pick is left in place and the
new pick is created alongside it (validation rules 2–5 are skipped). -/
theorem admin_override_keeps_week_pick
    (seasons : List Season) (games : List Game) (store : List Pick)
    (u : UserRec) (game_id team_id next_id : Nat)
    (current_group group_id : Option Nat) (season : Season) (game : Game)
    (r : Pick)
    (hgid : group_id = if u.picks_are_global then none else current_group)
    (hgame : findGame games game_id = some game)
    (hseason : game.season_id = season.id)
    (hteam : team_id = game.home_team_id ∨ team_id = game.away_team_id)
    (hwk : store.find? (wpredFilter games u season.id game.week game_id
        group_id) = some r)
    (hep : store.find? (epredFilter u game_id group_id) = none) :
    (process_single_pick seasons games store u game_id team_id season true
        current_group next_id).2 =
      store ++ [newPick next_id u game_id season.id team_id group_id] ∧
    r ∈ (process_single_pick seasons games store u game_id team_id season true
        current_group next_id).2 ∧
    (process_single_pick seasons games store u game_id team_id season true
        current_group next_id).1 = (true, "Pick created") := by
  have hteam' : (team_id != game.home_team_id &&
      team_id != game.away_team_id) = false := by
    rcases hteam with h | h <;> simp [h]
  have hout : process_single_pick seasons games store u game_id team_id season
      true current_group next_id =
      ((true, "Pick created"),
        store ++ [newPick next_id u game_id season.id team_id group_id]) := by
    simp only [process_single_pick, hgame, hseason, bne_self_eq_false,
      Bool.false_eq_true, if_false, hteam', Bool.not_true, Bool.false_and]
    rw [← hgid, hwk, hep]
    simp [apply_pick_transition, finish_transition]
  refine ⟨by rw [hout], ?_, by rw [hout]⟩
  rw [hout]
  exact List.mem_append_left _ (List.mem_of_find?_eq_some hwk)

/-- Filtering (deleting rows) never increases a filtered length. -/
theorem length_filter_filter_le {α : Type} (f g : α → Bool) (l : List α) :
    ((l.filter f).filter g).length ≤ (l.filter g).length := by
  induction l with
  | nil => simp
  | cons a l ih =>
    simp only [List.filter_cons]
    cases hf : f a
    · cases hg : g a
      · simpa using ih
      · simp only [List.filter_cons, hg, List.length_cons, if_true]
        exact Nat.le_succ_of_le ih
    · cases hg : g a
      · simpa [List.filter_cons, hg] using ih
      · simpa [List.filter_cons, hg] using ih

/-- Deleting rows never increases an active-pick count. -/
theorem countActive_filter_le (games : List Game) (store : List Pick)
    (f : Pick → Bool) (uid sid w : Nat) (scope : Option Nat) :
    countActive games (store.filter f) uid sid w scope ≤
      countActive games store uid sid w scope :=
  length_filter_filter_le f (activePred games uid sid w scope) store

/-- Appending rows adds their active-pick counts. -/
theorem countActive_append (games : List Game) (s t : List Pick)
    (uid sid w : Nat) (scope : Option Nat) :
    countActive games (s ++ t) uid sid w scope =
      countActive games s uid sid w scope +
        countActive games t uid sid w scope := by
  unfold countActive
  simp [List.filter_append]

/-- A list of length at most one has at most one member. -/
theorem list_len_le_one_eq {α : Type} {l : List α} (h : l.length ≤ 1)
    {a b : α} (ha : a ∈ l) (hb : b ∈ l) : a = b := by
  cases l with
  | nil => cases ha
  | cons x xs =>
    have hxs : xs = [] := by
      cases xs with
      | nil => rfl
      | cons y ys => simp at h
    subst hxs
    rw [List.mem_singleton] at ha hb
    rw [ha, hb]

/-- Rows with pairwise-distinct primary keys: equal key means equal row. -/
theorem nodup_map_mem_inj {α β : Type} {f : α → β} {l : List α}
    (h : (l.map f).Nodup) {a b : α} (ha : a ∈ l) (hb : b ∈ l)
    (hf : f a = f b) : a = b := by
  induction l with
  | nil => cases ha
  | cons x xs ih =>
    simp only [List.map_cons, List.nodup_cons] at h
    rcases List.mem_cons.mp ha with rfl | ha'
    · rcases List.mem_cons.mp hb with rfl | hb'
      · rfl
      · exact absurd (hf ▸ List.mem_map_of_mem f hb') h.1
    · rcases List.mem_cons.mp hb with rfl | hb'
      · exact absurd (hf ▸ List.mem_map_of_mem f ha') h.1
      · exact ih h.2 ha' hb'

/-- A map that does not change the filter-status of any element keeps the
filtered length. -/
theorem length_filter_map_eq {α : Type} (f : α → α) (pred : α → Bool)
    (l : List α) (h : ∀ a ∈ l, pred (f a) = pred a) :
    ((l.map f).filter pred).length = (l.filter pred).length := by
  induction l with
  | nil => rfl
  | cons x xs ih =>
    have hx := h x (List.mem_cons_self x xs)
    have ih' := ih fun a ha => h a (List.mem_cons_of_mem x ha)
    simp only [List.map_cons, List.filter_cons, hx]
    cases hp : pred x
    · simpa using ih'
    · simpa using ih'

/-- The route's same-game update (`existing_pick.selected_team_id = …`
etc.) does not change the pick's active-status for any (picker, season,
week, scope): the updated `game_id` and `group_id` equal the old values
by the `existing_pick` filter. -/
theorem update_preserves_activePred (games : List Game) (u : UserRec)
    (game_id team_id : Nat) (group_id : Option Nat) (e : Pick)
    (uid sid w : Nat) (scope : Option Nat)
    (hep : epredFilter u game_id group_id e = true) :
    activePred games uid sid w scope
      { e with selected_team_id := team_id
               game_id := game_id
               group_id := group_id } =
      activePred games uid sid w scope e := by
  simp only [epredFilter, Bool.and_eq_true, beq_iff_eq] at hep
  obtain ⟨⟨h0, h1⟩, h2⟩ := hep
  obtain ⟨eid, euid, egid, esid, egrp, esel, eic, epts, etb⟩ := e
  simp only at h1 h2
  subst h1
  subst h2
  rfl

/-- After `finish_transition`, a (picker, season, week, scope) that held
at most one active pick still holds at most one.  `base` is the store
the transition acts on (the full store, or the store minus the deleted
week pick); the two `find?` facts are stated against the full store. -/
theorem finish_transition_preserves (games : List Game)
    (store base : List Pick) (u : UserRec)
    (game_id team_id season_id next_id : Nat) (group_id : Option Nat)
    (uid sid w : Nat) (scope : Option Nat)
    (hsub : ∀ p ∈ base, p ∈ store)
    (hids : (store.map Pick.id).Nodup)
    (hcount_base : countActive games base uid sid w scope ≤ 1)
    (hcreate_zero :
      store.find? (epredFilter u game_id group_id) = none →
      activePred games uid sid w scope
        (newPick next_id u game_id season_id team_id group_id) = true →
      countActive games base uid sid w scope = 0) :
    countActive games (finish_transition base u game_id team_id season_id
      next_id group_id (store.find? (epredFilter u game_id group_id))).2
      uid sid w scope ≤ 1 := by
  cases hep : store.find? (epredFilter u game_id group_id) with
  | some e =>
    unfold finish_transition
    have he_mem : e ∈ store := List.mem_of_find?_eq_some hep
    have he_pred : epredFilter u game_id group_id e = true :=
      List.find?_some hep
    have hmap : ∀ p ∈ base, activePred games uid sid w scope
        (if p.id == e.id then
          { p with selected_team_id := team_id
                   game_id := game_id
                   group_id := group_id }
        else p) = activePred games uid sid w scope p := by
      intro p hp
      cases hid : p.id == e.id
      · simp [hid]
      · have hpe : p = e :=
          nodup_map_mem_inj hids (hsub p hp) he_mem (beq_iff_eq.mp hid)
        subst hpe
        simp only [if_pos rfl]
        exact update_preserves_activePred games u game_id team_id group_id p
          uid sid w scope he_pred
    show countActive games (base.map _) uid sid w scope ≤ 1
    unfold countActive
    rw [length_filter_map_eq _ _ _ hmap]
    exact hcount_base
  | none =>
    unfold finish_transition
    show countActive games (base ++ [newPick next_id u game_id season_id
      team_id group_id]) uid sid w scope ≤ 1
    rw [countActive_append]
    cases hnew : activePred games uid sid w scope
        (newPick next_id u game_id season_id team_id group_id)
    · have hone : countActive games [newPick next_id u game_id season_id
          team_id group_id] uid sid w scope = 0 := by
        unfold countActive
        simp [hnew]
      omega
    · have hzero := hcreate_zero hep hnew
      have hone : countActive games [newPick next_id u game_id season_id
          team_id group_id] uid sid w scope = 1 := by
        unfold countActive
        simp [hnew]
      omega

/-- Unpacks `activePred`. -/
theorem activePred_eq_true_iff (games : List Game) (uid sid w : Nat)
    (scope : Option Nat) (p : Pick) :
    activePred games uid sid w scope p = true ↔
      p.user_id = uid ∧ p.season_id = sid ∧ weekOf games p = some w ∧
        p.group_id = scope := by
  unfold activePred
  simp [Bool.and_eq_true, beq_iff_eq, and_assoc]

/-- Unpacks `wpredFilter`. -/
theorem wpredFilter_eq_true_iff (games : List Game) (u : UserRec)
    (season_id week game_id : Nat) (group_id : Option Nat) (p : Pick) :
    wpredFilter games u season_id week game_id group_id p = true ↔
      p.user_id = u.id ∧ p.season_id = season_id ∧
        weekOf games p = some week ∧ p.game_id ≠ game_id ∧
        p.group_id = group_id := by
  unfold wpredFilter
  simp [Bool.and_eq_true, beq_iff_eq, bne_iff_ne, and_assoc]

/-- Unpacks `epredFilter`. -/
theorem epredFilter_eq_true_iff (u : UserRec) (game_id : Nat)
    (group_id : Option Nat) (p : Pick) :
    epredFilter u game_id group_id p = true ↔
      p.user_id = u.id ∧ p.game_id = game_id ∧ p.group_id = group_id := by
  unfold epredFilter
  simp [Bool.and_eq_true, beq_iff_eq, and_assoc]

/-- What `activePred` says about the freshly created pick. -/
theorem activePred_newPick (games : List Game) (uid sid w : Nat)
    (scope : Option Nat) (u : UserRec)
    (next_id game_id season_id team_id : Nat) (group_id : Option Nat)
    (game : Game) (hg : findGame games game_id = some game)
    (h : activePred games uid sid w scope
      (newPick next_id u game_id season_id team_id group_id) = true) :
    uid = u.id ∧ sid = season_id ∧ w = game.week ∧ scope = group_id := by
  rw [activePred_eq_true_iff] at h
  obtain ⟨h1, h2, h3, h4⟩ := h
  refine ⟨h1.symm, h2.symm, ?_, h4.symm⟩
  unfold newPick weekOf at h3
  simp only [hg, Option.map_some] at h3
  exact (Option.some.inj h3).symm

/-- Unfolding of `apply_pick_transition` for a non-admin caller with an
existing same-week pick. -/
theorem apply_pick_transition_nonadmin_some (games : List Game)
    (store : List Pick) (u : UserRec)
    (game_id team_id season_id next_id : Nat) (group_id : Option Nat)
    (ep : Option Pick) (r : Pick) :
    apply_pick_transition games store u game_id team_id season_id group_id
        false next_id ep (some r) =
      if gameHasStarted games r then
        ((false, "Cannot switch pick: current pick has already started"),
          store)
      else
        finish_transition (store.filter (fun p => p.id != r.id)) u game_id
          team_id season_id next_id group_id ep := rfl

/-- Unfolding of `apply_pick_transition` for a non-admin caller with no
existing same-week pick. -/
theorem apply_pick_transition_nonadmin_none (games : List Game)
    (store : List Pick) (u : UserRec)
    (game_id team_id season_id next_id : Nat) (group_id : Option Nat)
    (ep : Option Pick) :
    apply_pick_transition games store u game_id team_id season_id group_id
        false next_id ep none =
      finish_transition store u game_id team_id season_id next_id group_id
        ep := rfl

/-- `apply_pick_transition` with the route's own `find?` results and a
non-admin caller preserves "at most one active pick per (picker, season,
week, scope)". -/
theorem apply_pick_transition_preserves (games : List Game)
    (store : List Pick) (u : UserRec)
    (game_id team_id season_id next_id : Nat) (group_id : Option Nat)
    (game : Game) (uid sid w : Nat) (scope : Option Nat)
    (hg : findGame games game_id = some game)
    (hids : (store.map Pick.id).Nodup)
    (hcount : countActive games store uid sid w scope ≤ 1) :
    countActive games (apply_pick_transition games store u game_id team_id
      season_id group_id false next_id
      (store.find? (epredFilter u game_id group_id))
      (store.find? (wpredFilter games u season_id game.week game_id
        group_id))).2 uid sid w scope ≤ 1 := by
  cases hwk : store.find? (wpredFilter games u season_id game.week game_id
      group_id) with
  | none =>
    rw [apply_pick_transition_nonadmin_none]
    refine finish_transition_preserves games store store u game_id team_id
      season_id next_id group_id uid sid w scope (fun p hp => hp) hids hcount
      ?_
    intro hep hnew
    obtain ⟨huid, hsid, hw, hscope⟩ := activePred_newPick games uid sid w
      scope u next_id game_id season_id team_id group_id game hg hnew
    rw [huid, hsid, hw, hscope]
    unfold countActive
    rw [List.length_eq_zero, List.filter_eq_nil_iff]
    intro q hq hact
    rw [activePred_eq_true_iff] at hact
    obtain ⟨hq1, hq2, hq3, hq4⟩ := hact
    have hepq := List.find?_eq_none.mp hep q hq
    have hwkq := List.find?_eq_none.mp hwk q hq
    by_cases hqg : q.game_id = game_id
    · refine hepq ?_
      rw [epredFilter_eq_true_iff]
      exact ⟨hq1, hqg, hq4⟩
    · refine hwkq ?_
      rw [wpredFilter_eq_true_iff]
      exact ⟨hq1, hq2, hq3, hqg, hq4⟩
  | some r =>
    rw [apply_pick_transition_nonadmin_some]
    have hr_mem : r ∈ store := List.mem_of_find?_eq_some hwk
    have hr_pred := List.find?_some hwk
    rw [wpredFilter_eq_true_iff] at hr_pred
    obtain ⟨hr1, hr2, hr3, hr4, hr5⟩ := hr_pred
    cases hst : gameHasStarted games r
    · simp only [Bool.false_eq_true, if_false]
      refine finish_transition_preserves games store
        (store.filter (fun p => p.id != r.id)) u game_id team_id season_id
        next_id group_id uid sid w scope
        (fun p hp => (List.mem_filter.mp hp).1) hids
        (le_trans (countActive_filter_le games store _ uid sid w scope)
          hcount) ?_
      intro hep hnew
      obtain ⟨huid, hsid, hw, hscope⟩ := activePred_newPick games uid sid w
        scope u next_id game_id season_id team_id group_id game hg hnew
      rw [huid, hsid, hw, hscope] at hcount ⊢
      unfold countActive
      rw [List.length_eq_zero, List.filter_eq_nil_iff]
      intro q hq hact
      obtain ⟨hq_store, hq_ne⟩ := List.mem_filter.mp hq
      rw [activePred_eq_true_iff] at hact
      obtain ⟨hq1, hq2, hq3, hq4⟩ := hact
      have hepq := List.find?_eq_none.mp hep q hq_store
      by_cases hqg : q.game_id = game_id
      · refine hepq ?_
        rw [epredFilter_eq_true_iff]
        exact ⟨hq1, hqg, hq4⟩
      · have hact_r : activePred games u.id season_id game.week group_id
            r = true := by
          rw [activePred_eq_true_iff]
          exact ⟨hr1, hr2, hr3, hr5⟩
        have hact_q : activePred games u.id season_id game.week group_id
            q = true := by
          rw [activePred_eq_true_iff]
          exact ⟨hq1, hq2, hq3, hq4⟩
        have hq_filter : q ∈ store.filter
            (activePred games u.id season_id game.week group_id) :=
          List.mem_filter.mpr ⟨hq_store, hact_q⟩
        have hr_filter : r ∈ store.filter
            (activePred games u.id season_id game.week group_id) :=
          List.mem_filter.mpr ⟨hr_mem, hact_r⟩
        have hcount' : (store.filter (activePred games u.id season_id
            game.week group_id)).length ≤ 1 := hcount
        have hqr : q = r := list_len_le_one_eq hcount' hq_filter hr_filter
        rw [hqr] at hq_ne
        simp at hq_ne
    · simp only [eq_self_iff_true, if_true]
      exact hcount

/-- C3 amended.  For non-administrative submissions the pick-write path
preserves "at most one active pick per (picker, season, week,
pool-scope)" (given distinct pick primary keys); administrative
overrides can violate it (see the counterexample), and the persistence
uniqueness constraint is per (user, game, group), not per week, so it
does not block a second same-week pick. -/
theorem nonadmin_single_active_pick_preserved (seasons : List Season)
    (games : List Game) (store : List Pick) (u : UserRec)
    (game_id team_id next_id : Nat) (season : Season)
    (current_group : Option Nat) (uid sid w : Nat) (scope : Option Nat)
    (hids : (store.map Pick.id).Nodup)
    (hcount : countActive games store uid sid w scope ≤ 1) :
    countActive games (process_single_pick seasons games store u game_id
      team_id season false current_group next_id).2 uid sid w scope ≤ 1 := by
  unfold process_single_pick
  cases hg : findGame games game_id with
  | none => exact hcount
  | some game =>
    cases hpg : u.picks_are_global
    · simp only [Bool.false_eq_true, if_false, Bool.not_false, Bool.true_and,
        eq_self_iff_true, if_true]
      split
      · exact hcount
      · split
        · exact hcount
        · split
          · exact hcount
          · split
            · exact hcount
            · split
              · exact hcount
              · exact apply_pick_transition_preserves games store u game_id
                  team_id season.id next_id current_group game uid sid w
                  scope hg hids hcount
    · simp only [eq_self_iff_true, if_true, Bool.not_false, Bool.true_and]
      split
      · exact hcount
      · split
        · exact hcount
        · split
          · exact hcount
          · split
            · exact hcount
            · split
              · exact hcount
              · exact apply_pick_transition_preserves games store u game_id
                  team_id season.id next_id none game uid sid w scope hg
                  hids hcount

/-- C3 amended witness: a concrete non-admin switch of the week-3 pick
from game 1 to game 2 keeps the count at one. -/
theorem nonadmin_single_active_pick_preserved_witness :
    countActive [⟨1, 1, 3, 1, 2, 0, 0, false, false⟩, ⟨2, 1, 3, 3, 4, 0, 0, false, false⟩]
      (process_single_pick [⟨1, 18⟩]
        [⟨1, 1, 3, 1, 2, 0, 0, false, false⟩, ⟨2, 1, 3, 3, 4, 0, 0, false, false⟩]
        [⟨1, 7, 1, 1, none, 1, none, 0, 0⟩]
        ⟨7, true⟩ 2 3 ⟨1, 18⟩ false none 2).2 7 1 3 none ≤ 1 :=
  nonadmin_single_active_pick_preserved [⟨1, 18⟩]
    [⟨1, 1, 3, 1, 2, 0, 0, false, false⟩, ⟨2, 1, 3, 3, 4, 0, 0, false, false⟩]
    [⟨1, 7, 1, 1, none, 1, none, 0, 0⟩]
    ⟨7, true⟩ 2 3 2 ⟨1, 18⟩ none 7 1 3 none (by decide) (by decide)

/-- C8 amended witness: concrete admin override leaving the old week pick
in place and appending the new one. -/
theorem admin_override_keeps_week_pick_witness :
    (process_single_pick [⟨3, 18⟩]
        [⟨7, 3, 5, 21, 22, 0, 0, false, false⟩, ⟨8, 3, 5, 23, 24, 0, 0, false, false⟩]
        [⟨4, 10, 7, 3, none, 21, none, 0, 0⟩]
        ⟨10, true⟩ 8 23 ⟨3, 18⟩ true none 5).2 =
      [⟨4, 10, 7, 3, none, 21, none, 0, 0⟩] ++
        [newPick 5 ⟨10, true⟩ 8 3 23 none] ∧
    (⟨4, 10, 7, 3, none, 21, none, 0, 0⟩ : Pick) ∈
      (process_single_pick [⟨3, 18⟩]
        [⟨7, 3, 5, 21, 22, 0, 0, false, false⟩, ⟨8, 3, 5, 23, 24, 0, 0, false, false⟩]
        [⟨4, 10, 7, 3, none, 21, none, 0, 0⟩]
        ⟨10, true⟩ 8 23 ⟨3, 18⟩ true none 5).2 ∧
    (process_single_pick [⟨3, 18⟩]
        [⟨7, 3, 5, 21, 22, 0, 0, false, false⟩, ⟨8, 3, 5, 23, 24, 0, 0, false, false⟩]
        [⟨4, 10, 7, 3, none, 21, none, 0, 0⟩]
        ⟨10, true⟩ 8 23 ⟨3, 18⟩ true none 5).1 = (true, "Pick created") :=
  admin_override_keeps_week_pick [⟨3, 18⟩]
    [⟨7, 3, 5, 21, 22, 0, 0, false, false⟩, ⟨8, 3, 5, 23, 24, 0, 0, false, false⟩]
    [⟨4, 10, 7, 3, none, 21, none, 0, 0⟩]
    ⟨10, true⟩ 8 23 5 none none ⟨3, 18⟩ ⟨8, 3, 5, 23, 24, 0, 0, false, false⟩
    ⟨4, 10, 7, 3, none, 21, none, 0, 0⟩
    (by decide) (by decide) (by decide) (Or.inl (by decide)) (by decide)
    (by decide)


/-- `app/models/regular_season_snapshot.py` — the
`regular_season_snapshots` row (surrogate id and `snapshot_date`
omitted; they carry no logic).  `is_playoff_eligible` is the elimination
gate, `is_superbowl_eligible` the final-phase gate. -/
structure Snapshot where
  season_id : Nat
  user_id : Nat
  group_id : Option Nat
  final_rank : Nat
  total_wins : Nat
  total_losses : Nat
  total_ties : Nat
  total_score : ℚ
  tiebreaker_points : ℚ
  accuracy : ℚ
  is_playoff_eligible : Bool
  is_superbowl_eligible : Bool
  deriving Repr, DecidableEq

/-- One `User.get_season_leaderboard` entry as consumed by
`create_snapshot`: the user id and the aggregate fields read from it. -/
structure LBEntry where
  user_id : Nat
  wins : Nat
  losses : Nat
  ties : Nat
  total_score : ℚ
  tiebreaker_points : ℚ
  accuracy : ℚ
  deriving Repr, DecidableEq

/-- The `filter_by(season_id, user_id, group_id)` snapshot lookup key
(the table's unique constraint). -/
def snapKey (season_id user_id : Nat) (group_id : Option Nat)
    (s : Snapshot) : Bool :=
  s.season_id == season_id && s.user_id == user_id && s.group_id == group_id

/-- The `for rank, entry in enumerate(leaderboard, start=1)` loop of
`RegularSeasonSnapshot.create_snapshot`: reuse the existing row when one
matches the key, otherwise add a new row (`is_playoff_eligible = rank ≤
4`, `is_superbowl_eligible = False`).  The accumulator store models the
session the in-loop query reads (pending adds are visible). -/
def create_snapshot_loop (season_id : Nat) (group_id : Option Nat) :
    List Snapshot → Nat → List LBEntry → List Snapshot × List Snapshot
  | store, _, [] => (store, [])
  | store, rank, entry :: rest =>
    match store.find? (snapKey season_id entry.user_id group_id) with
    | some existing =>
      let out := create_snapshot_loop season_id group_id store (rank + 1) rest
      (out.1, existing :: out.2)
    | none =>
      let snapshot : Snapshot :=
        ⟨season_id, entry.user_id, group_id, rank, entry.wins, entry.losses,
          entry.ties, entry.total_score, entry.tiebreaker_points,
          entry.accuracy, decide (rank ≤ 4), false⟩
      let out := create_snapshot_loop season_id group_id (store ++ [snapshot])
        (rank + 1) rest
      (out.1, snapshot :: out.2)

/-- `RegularSeasonSnapshot.create_snapshot(season_id, group_id)`:
empty leaderboard returns `[]`; otherwise run the loop.  Returns the
resulting store and the returned snapshot list. -/
def create_snapshot (store : List Snapshot) (leaderboard : List LBEntry)
    (season_id : Nat) (group_id : Option Nat) :
    List Snapshot × List Snapshot :=
  if leaderboard.isEmpty then (store, [])
  else create_snapshot_loop season_id group_id store 1 leaderboard

/-- The loop only appends rows: the old store is a prefix. -/
theorem create_snapshot_loop_grows (season_id : Nat) (group_id : Option Nat)
    (entries : List LBEntry) (store : List Snapshot) (rank : Nat) :
    ∃ ext, (create_snapshot_loop season_id group_id store rank entries).1 =
      store ++ ext := by
  induction entries generalizing store rank with
  | nil => exact ⟨[], (List.append_nil store).symm⟩
  | cons e rest ih =>
    unfold create_snapshot_loop
    cases hf : store.find? (snapKey season_id e.user_id group_id) with
    | some existing => exact ih store (rank + 1)
    | none =>
      obtain ⟨ext, hext⟩ := ih (store ++ [⟨season_id, e.user_id, group_id,
        rank, e.wins, e.losses, e.ties, e.total_score, e.tiebreaker_points,
        e.accuracy, decide (rank ≤ 4), false⟩]) (rank + 1)
      refine ⟨[⟨season_id, e.user_id, group_id, rank, e.wins, e.losses,
        e.ties, e.total_score, e.tiebreaker_points, e.accuracy,
        decide (rank ≤ 4), false⟩] ++ ext, ?_⟩
      rw [hext, List.append_assoc]

/-- After the loop, every leaderboard entry has a matching row. -/
theorem create_snapshot_loop_covers (season_id : Nat)
    (group_id : Option Nat) (entries : List LBEntry) (store : List Snapshot)
    (rank : Nat) :
    ∀ e ∈ entries, ∃ s ∈ (create_snapshot_loop season_id group_id store rank
      entries).1, snapKey season_id e.user_id group_id s = true := by
  induction entries generalizing store rank with
  | nil => intro e he; cases he
  | cons e0 rest ih =>
    intro e he
    unfold create_snapshot_loop
    cases hf : store.find? (snapKey season_id e0.user_id group_id) with
    | some existing =>
      rcases List.mem_cons.mp he with rfl | he2
      · obtain ⟨ext, hext⟩ := create_snapshot_loop_grows season_id group_id
          rest store (rank + 1)
        refine ⟨existing, ?_, List.find?_some hf⟩
        simp only [hext]
        exact List.mem_append_left _ (List.mem_of_find?_eq_some hf)
      · exact ih store (rank + 1) e he2
    | none =>
      rcases List.mem_cons.mp he with rfl | he2
      · obtain ⟨ext, hext⟩ := create_snapshot_loop_grows season_id group_id
          rest (store ++ [⟨season_id, e.user_id, group_id, rank, e.wins,
            e.losses, e.ties, e.total_score, e.tiebreaker_points, e.accuracy,
            decide (rank ≤ 4), false⟩]) (rank + 1)
        refine ⟨⟨season_id, e.user_id, group_id, rank, e.wins, e.losses,
          e.ties, e.total_score, e.tiebreaker_points, e.accuracy,
          decide (rank ≤ 4), false⟩, ?_, ?_⟩
        · simp only [hext]
          refine List.mem_append_left _ (List.mem_append_right _ ?_)
          exact List.mem_singleton.mpr rfl
        · simp [snapKey]
      · exact ih (store ++ [⟨season_id, e0.user_id, group_id, rank, e0.wins,
          e0.losses, e0.ties, e0.total_score, e0.tiebreaker_points,
          e0.accuracy, decide (rank ≤ 4), false⟩]) (rank + 1) e he2

/-- When every entry already has a row, the loop changes nothing and
returns rows of the store. -/
theorem create_snapshot_loop_stable (season_id : Nat)
    (group_id : Option Nat) (entries : List LBEntry) (store : List Snapshot)
    (rank : Nat)
    (h : ∀ e ∈ entries, ∃ s ∈ store,
      snapKey season_id e.user_id group_id s = true) :
    (create_snapshot_loop season_id group_id store rank entries).1 = store ∧
    ∀ x ∈ (create_snapshot_loop season_id group_id store rank entries).2,
      x ∈ store := by
  induction entries generalizing rank with
  | nil => exact ⟨rfl, fun x hx => absurd hx (List.not_mem_nil x)⟩
  | cons e0 rest ih =>
    unfold create_snapshot_loop
    cases hf : store.find? (snapKey season_id e0.user_id group_id) with
    | some existing =>
      obtain ⟨hstore, hmem⟩ := ih (rank + 1)
        (fun e he => h e (List.mem_cons_of_mem e0 he))
      refine ⟨hstore, fun x hx => ?_⟩
      rcases List.mem_cons.mp hx with rfl | hx2
      · exact List.mem_of_find?_eq_some hf
      · exact hmem x hx2
    | none =>
      obtain ⟨s, hs, hkey⟩ := h e0 (List.mem_cons_self e0 rest)
      exact absurd hkey (List.find?_eq_none.mp hf s hs)

/-- C6.  Invoking `create_snapshot` a second time for the same (season,
scope) with the same leaderboard leaves the snapshot rows exactly as the
first call left them, and every row the second call returns is one of the
existing rows — nothing is overwritten or recreated. -/
theorem create_snapshot_idempotent (store : List Snapshot)
    (leaderboard : List LBEntry) (season_id : Nat) (group_id : Option Nat) :
    (create_snapshot (create_snapshot store leaderboard season_id group_id).1
      leaderboard season_id group_id).1 =
      (create_snapshot store leaderboard season_id group_id).1 ∧
    ∀ x ∈ (create_snapshot (create_snapshot store leaderboard season_id
      group_id).1 leaderboard season_id group_id).2,
      x ∈ (create_snapshot store leaderboard season_id group_id).1 := by
  unfold create_snapshot
  cases hemp : leaderboard.isEmpty
  · exact create_snapshot_loop_stable season_id group_id leaderboard _ 1
      (create_snapshot_loop_covers season_id group_id leaderboard store 1)
  · exact ⟨rfl, fun x hx => absurd hx (List.not_mem_nil x)⟩


/-- The eligibility filter of
`RegularSeasonSnapshot.get_playoff_eligible_users`:
`filter_by(season_id=…, is_playoff_eligible=True)` plus the group-scope
branch. -/
def eligibleFilter (season_id : Nat) (group_id : Option Nat)
    (s : Snapshot) : Bool :=
  s.season_id == season_id && s.is_playoff_eligible && s.group_id == group_id

/-- `order_by(final_rank)` — insertion sort on `final_rank`. -/
def insertByRank (s : Snapshot) : List Snapshot → List Snapshot
  | [] => [s]
  | t :: ts =>
    if s.final_rank ≤ t.final_rank then s :: t :: ts
    else t :: insertByRank s ts

def sortByRank : List Snapshot → List Snapshot
  | [] => []
  | s :: ss => insertByRank s (sortByRank ss)

/-- `RegularSeasonSnapshot.get_playoff_eligible_users`: ids of the
elimination-eligible snapshots for the season and scope, by rank. -/
def get_playoff_eligible_users (store : List Snapshot) (season_id : Nat)
    (group_id : Option Nat) : List Nat :=
  (sortByRank (store.filter (eligibleFilter season_id group_id))).map
    Snapshot.user_id

/-- One `User.get_playoff_leaderboard` row: the two fields the ranking
reads (`playoff_wins` and the season-long `total_tiebreaker`); the
remaining entry fields are display-only. -/
structure PlayoffRow where
  user_id : Nat
  playoff_wins : Nat
  total_tiebreaker : ℚ
  deriving Repr, DecidableEq

/-- `leaderboard.sort(key=(playoff_wins, total_tiebreaker), reverse=True)`
— insertion sort, descending on the pair. -/
def insertRowDesc (a : PlayoffRow) : List PlayoffRow → List PlayoffRow
  | [] => [a]
  | b :: bs =>
    if b.playoff_wins < a.playoff_wins ||
        (b.playoff_wins == a.playoff_wins &&
          b.total_tiebreaker < a.total_tiebreaker) then
      a :: b :: bs
    else b :: insertRowDesc a bs

def sortRowsDesc : List PlayoffRow → List PlayoffRow
  | [] => []
  | a :: rest => insertRowDesc a (sortRowsDesc rest)

/-- `User.get_playoff_leaderboard`: map the snapshot-eligible user ids
through the stats lookup (`User.query.get` plus `get_season_stats`;
users or stats that fail to load are skipped — the `stats` argument
models that lookup, yielding (playoff wins, season-long tiebreaker)),
then sort descending. -/
def get_playoff_leaderboard (store : List Snapshot)
    (stats : Nat → Option (Nat × ℚ)) (season_id : Nat)
    (group_id : Option Nat) : List PlayoffRow :=
  sortRowsDesc
    ((get_playoff_eligible_users store season_id group_id).filterMap
      (fun uid => (stats uid).map (fun st => ⟨uid, st.1, st.2⟩)))

/-- The reset step of `update_superbowl_eligibility`: clear the final
gate on this season's and scope's elimination-eligible rows. -/
def resetSBE (season_id : Nat) (group_id : Option Nat)
    (s : Snapshot) : Snapshot :=
  if s.season_id == season_id && s.is_playoff_eligible &&
      s.group_id == group_id then
    { s with is_superbowl_eligible := false }
  else s

/-- The per-user `.first()`-and-mutate step of
`update_superbowl_eligibility`: grant the final gate on the first row
matching the (season, user, scope) key. -/
def setFirstSBE (season_id uid : Nat) (group_id : Option Nat) :
    List Snapshot → List Snapshot
  | [] => []
  | s :: rest =>
    if snapKey season_id uid group_id s then
      { s with is_superbowl_eligible := true } :: rest
    else s :: setFirstSBE season_id uid group_id rest

/-- `RegularSeasonSnapshot.update_superbowl_eligibility` (the spec's
`grantFinalGate`): rank the elimination participants; if nobody ranks,
return unchanged; else reset the final gate for the season/scope and set
it for the top two of the playoff leaderboard. -/
def update_superbowl_eligibility (store : List Snapshot)
    (stats : Nat → Option (Nat × ℚ)) (season_id : Nat)
    (group_id : Option Nat) : List Snapshot :=
  let lb := get_playoff_leaderboard store stats season_id group_id
  if lb.isEmpty then store
  else
    let top2 := (lb.take 2).map PlayoffRow.user_id
    let reset := store.map (resetSBE season_id group_id)
    top2.foldl (fun st uid => setFirstSBE season_id uid group_id st) reset

theorem mem_insertByRank {x s : Snapshot} {l : List Snapshot}
    (h : x ∈ insertByRank s l) : x = s ∨ x ∈ l := by
  induction l with
  | nil => simpa [insertByRank] using h
  | cons t ts ih =>
    unfold insertByRank at h
    split at h
    · simpa using h
    · rcases List.mem_cons.mp h with rfl | h2
      · exact Or.inr (List.mem_cons_self _ _)
      · rcases ih h2 with h3 | h3
        · exact Or.inl h3
        · exact Or.inr (List.mem_cons_of_mem t h3)

theorem mem_sortByRank {x : Snapshot} {l : List Snapshot}
    (h : x ∈ sortByRank l) : x ∈ l := by
  induction l with
  | nil => simpa [sortByRank] using h
  | cons s ss ih =>
    rcases mem_insertByRank h with rfl | h2
    · exact List.mem_cons_self _ _
    · exact List.mem_cons_of_mem s (ih h2)

theorem mem_insertRowDesc {x a : PlayoffRow} {l : List PlayoffRow}
    (h : x ∈ insertRowDesc a l) : x = a ∨ x ∈ l := by
  induction l with
  | nil => simpa [insertRowDesc] using h
  | cons b bs ih =>
    unfold insertRowDesc at h
    split at h
    · simpa using h
    · rcases List.mem_cons.mp h with rfl | h2
      · exact Or.inr (List.mem_cons_self _ _)
      · rcases ih h2 with h3 | h3
        · exact Or.inl h3
        · exact Or.inr (List.mem_cons_of_mem b h3)

theorem mem_sortRowsDesc {x : PlayoffRow} {l : List PlayoffRow}
    (h : x ∈ sortRowsDesc l) : x ∈ l := by
  induction l with
  | nil => simpa [sortRowsDesc] using h
  | cons a rest ih =>
    rcases mem_insertRowDesc h with rfl | h2
    · exact List.mem_cons_self _ _
    · exact List.mem_cons_of_mem a (ih h2)

/-- Every id in the eligible list comes from an elimination-eligible
snapshot of this season and scope. -/
theorem eligible_user_has_row (store : List Snapshot) (season_id : Nat)
    (group_id : Option Nat) :
    ∀ uid ∈ get_playoff_eligible_users store season_id group_id,
      ∃ s ∈ store, s.season_id = season_id ∧ s.user_id = uid ∧
        s.group_id = group_id ∧ s.is_playoff_eligible = true := by
  intro uid h
  unfold get_playoff_eligible_users at h
  obtain ⟨s, hs, rfl⟩ := List.mem_map.mp h
  obtain ⟨hmem, hfil⟩ := List.mem_filter.mp (mem_sortByRank hs)
  unfold eligibleFilter at hfil
  simp only [Bool.and_eq_true, beq_iff_eq] at hfil
  exact ⟨s, hmem, hfil.1.1, rfl, hfil.2, hfil.1.2⟩

/-- Every playoff-leaderboard row belongs to an eligible user. -/
theorem lb_row_eligible (store : List Snapshot)
    (stats : Nat → Option (Nat × ℚ)) (season_id : Nat)
    (group_id : Option Nat) :
    ∀ row ∈ get_playoff_leaderboard store stats season_id group_id,
      row.user_id ∈ get_playoff_eligible_users store season_id group_id := by
  intro row h
  unfold get_playoff_leaderboard at h
  obtain ⟨uid, huid, hmap⟩ := List.mem_filterMap.mp (mem_sortRowsDesc h)
  cases hst : stats uid with
  | none => rw [hst] at hmap; cases hmap
  | some st =>
    rw [hst] at hmap
    have hrow := Option.some.inj hmap
    rw [← hrow]
    exact huid

/-- Distinct (season, user, scope) keys — the table's unique
constraint. -/
abbrev keyNe (a b : Snapshot) : Prop :=
  ¬(a.season_id = b.season_id ∧ a.user_id = b.user_id ∧
    a.group_id = b.group_id)

/-- The invariant carried through `update_superbowl_eligibility`: keys
and the elimination gate are preserved, and the final gate is only newly
true on rows whose original is elimination-eligible. -/
def SnapRel (o n : Snapshot) : Prop :=
  n.season_id = o.season_id ∧ n.user_id = o.user_id ∧
  n.group_id = o.group_id ∧
  n.is_playoff_eligible = o.is_playoff_eligible ∧
  (n.is_superbowl_eligible = true →
    o.is_superbowl_eligible = true ∨ o.is_playoff_eligible = true)

theorem snapRel_reset (season_id : Nat) (group_id : Option Nat)
    (l : List Snapshot) :
    List.Forall₂ SnapRel l (l.map (resetSBE season_id group_id)) := by
  induction l with
  | nil => exact List.Forall₂.nil
  | cons s rest ih =>
    refine List.Forall₂.cons ?_ ih
    unfold resetSBE SnapRel
    split
    · exact ⟨rfl, rfl, rfl, rfl, fun h => absurd h Bool.false_ne_true⟩
    · exact ⟨rfl, rfl, rfl, rfl, fun h => Or.inl h⟩

theorem snapRel_setFirstSBE (season_id uid : Nat) (group_id : Option Nat)
    (orig cur : List Snapshot)
    (hrel : List.Forall₂ SnapRel orig cur)
    (huniq : orig.Pairwise keyNe)
    (hex : ∃ o ∈ orig, o.season_id = season_id ∧ o.user_id = uid ∧
      o.group_id = group_id ∧ o.is_playoff_eligible = true) :
    List.Forall₂ SnapRel orig (setFirstSBE season_id uid group_id cur) := by
  induction cur generalizing orig with
  | nil =>
    cases hrel
    exact List.Forall₂.nil
  | cons c cs ih =>
    cases hrel with
    | cons hR hrest =>
      rename_i o os
      obtain ⟨huo, hrest'⟩ := List.pairwise_cons.mp huniq
      unfold setFirstSBE
      cases hk : snapKey season_id uid group_id c
      · refine List.Forall₂.cons hR (ih os hrest hrest' ?_)
        obtain ⟨o2, ho2mem, ho2⟩ := hex
        rcases List.mem_cons.mp ho2mem with rfl | ho2tail
        · exfalso
          apply Bool.false_ne_true
          rw [← hk]
          unfold snapKey
          simp only [Bool.and_eq_true, beq_iff_eq]
          exact ⟨⟨hR.1.trans ho2.1, hR.2.1.trans ho2.2.1⟩,
            hR.2.2.1.trans ho2.2.2.1⟩
        · exact ⟨o2, ho2tail, ho2⟩
      · refine List.Forall₂.cons ?_ hrest
        unfold snapKey at hk
        simp only [Bool.and_eq_true, beq_iff_eq] at hk
        have hope : o.is_playoff_eligible = true := by
          obtain ⟨o2, ho2mem, ho2⟩ := hex
          rcases List.mem_cons.mp ho2mem with rfl | ho2tail
          · exact ho2.2.2.2
          · exfalso
            apply huo o2 ho2tail
            refine ⟨?_, ?_, ?_⟩
            · rw [← hR.1, hk.1.1, ho2.1]
            · rw [← hR.2.1, hk.1.2, ho2.2.1]
            · rw [← hR.2.2.1, hk.2, ho2.2.2.1]
        exact ⟨hR.1, hR.2.1, hR.2.2.1, hR.2.2.2.1,
          fun _ => Or.inr hope⟩

theorem snapRel_fold (season_id : Nat) (group_id : Option Nat) :
    ∀ (uids : List Nat) (orig cur : List Snapshot),
    List.Forall₂ SnapRel orig cur →
    orig.Pairwise keyNe →
    (∀ uid ∈ uids, ∃ o ∈ orig, o.season_id = season_id ∧
      o.user_id = uid ∧ o.group_id = group_id ∧
      o.is_playoff_eligible = true) →
    List.Forall₂ SnapRel orig
      (uids.foldl (fun st uid => setFirstSBE season_id uid group_id st)
        cur)
  | [], _, _, hrel, _, _ => hrel
  | uid :: rest, orig, cur, hrel, huniq, hex =>
    snapRel_fold season_id group_id rest orig
      (setFirstSBE season_id uid group_id cur)
      (snapRel_setFirstSBE season_id uid group_id orig cur hrel huniq
        (hex uid (List.mem_cons_self uid rest)))
      huniq
      (fun uid2 h => hex uid2 (List.mem_cons_of_mem uid h))

/-- C7.  `update_superbowl_eligibility` (grantFinalGate) never sets the
final-phase gate to true for a picker whose snapshot has the elimination
gate false: any row whose `is_superbowl_eligible` is true afterwards
either already had it or is elimination-eligible.  Snapshot keys are
assumed pairwise distinct — the table's unique constraint. -/
theorem grantFinalGate_monotone (store : List Snapshot)
    (stats : Nat → Option (Nat × ℚ)) (season_id : Nat)
    (group_id : Option Nat) (huniq : store.Pairwise keyNe) :
    List.Forall₂ (fun o n => n.is_superbowl_eligible = true →
      o.is_superbowl_eligible = true ∨ o.is_playoff_eligible = true)
      store (update_superbowl_eligibility store stats season_id
        group_id) := by
  unfold update_superbowl_eligibility
  dsimp only
  cases hemp : (get_playoff_leaderboard store stats season_id
      group_id).isEmpty
  · have hfold : List.Forall₂ SnapRel store
        (((get_playoff_leaderboard store stats season_id group_id).take
          2).map PlayoffRow.user_id |>.foldl
            (fun st uid => setFirstSBE season_id uid group_id st)
            (store.map (resetSBE season_id group_id))) := by
      refine snapRel_fold season_id group_id _ store _
        (snapRel_reset season_id group_id store) huniq ?_
      intro uid huid
      obtain ⟨row, hrow, hrowid⟩ := List.mem_map.mp huid
      have hrow2 : row ∈ get_playoff_leaderboard store stats season_id
          group_id := List.take_subset 2 _ hrow
      have hel := lb_row_eligible store stats season_id group_id row hrow2
      rw [hrowid] at hel
      exact eligible_user_has_row store season_id group_id uid hel
    exact hfold.imp (fun a b h => h.2.2.2.2)
  · have hsame : List.Forall₂ (fun o n : Snapshot =>
        n.is_superbowl_eligible = true →
          o.is_superbowl_eligible = true ∨ o.is_playoff_eligible = true)
        store store :=
      List.forall₂_same.mpr (fun x _ h => Or.inl h)
    exact hsame

/-- C7 witness: two snapshots (ranks 1 and 5; only the first
elimination-eligible), a stats lookup ranking user 1. -/
theorem grantFinalGate_monotone_witness :
    ([⟨1, 1, none, 1, 10, 4, 0, 10, 30, 0, true, false⟩,
      ⟨1, 2, none, 5, 5, 9, 0, 5, -3, 0, false, false⟩] :
        List Snapshot).Pairwise keyNe ∧
    List.Forall₂ (fun o n => n.is_superbowl_eligible = true →
      o.is_superbowl_eligible = true ∨ o.is_playoff_eligible = true)
      ([⟨1, 1, none, 1, 10, 4, 0, 10, 30, 0, true, false⟩,
        ⟨1, 2, none, 5, 5, 9, 0, 5, -3, 0, false, false⟩] : List Snapshot)
      (update_superbowl_eligibility
        [⟨1, 1, none, 1, 10, 4, 0, 10, 30, 0, true, false⟩,
          ⟨1, 2, none, 5, 5, 9, 0, 5, -3, 0, false, false⟩]
        (fun uid => if uid == 1 then some (3, (5 : ℚ)) else none) 1 none) :=
  ⟨by decide, grantFinalGate_monotone _ _ 1 none (by decide)⟩


/-- Modelled from the spec: `Pick.recalculate_for_game(game_id,
commit=True)` is invoked by the synchronizer's phase 2
(`SchedulerService._sync_live_games` / `_sync_game_status`) but the
method itself is not present under the sources.  Per §4.4 Phase 2 and §7
it loads every pick referencing the newly finalized contest and
recomputes each via the Scoring Calculator, sequentially, inside one
transaction; an exception while scoring any one pick aborts the whole
batch.  `failsAt` models which pick's recomputation raises. -/
def recalcPicksSeq (g : Game) (failsAt : Nat → Bool) :
    List Pick → Except String (List Pick)
  | [] => .ok []
  | p :: rest =>
    if p.game_id == g.id then
      if failsAt p.id then .error "recalculation failed"
      else (recalcPicksSeq g failsAt rest).map
        (fun ps => p.update_result (some g) :: ps)
    else (recalcPicksSeq g failsAt rest).map (fun ps => p :: ps)

/-- Modelled from the spec: the game lookup of
`Pick.recalculate_for_game` — the contest's picks are the store rows
referencing the game. -/
def recalculate_for_game (games : List Game) (failsAt : Nat → Bool)
    (store : List Pick) (game_id : Nat) : Except String (List Pick) :=
  match findGame games game_id with
  | none => .error "Game not found"
  | some g => recalcPicksSeq g failsAt store

/-- Modelled from the spec: the `commit=True` transaction wrapper — on
success the recomputed rows are committed; on an exception the
transaction rolls back and the store keeps its prior rows. -/
def run_recalculate (games : List Game) (failsAt : Nat → Bool)
    (store : List Pick) (game_id : Nat) : List Pick :=
  match recalculate_for_game games failsAt store game_id with
  | .ok s => s
  | .error _ => store

/-- A successful sequential recomputation updates exactly the picks of
the contest and leaves the rest unchanged. -/
theorem recalcPicksSeq_ok (g : Game) (failsAt : Nat → Bool) :
    ∀ (store s : List Pick),
      recalcPicksSeq g failsAt store = Except.ok s →
      List.Forall₂ (fun p q =>
        q = if p.game_id == g.id then p.update_result (some g) else p)
        store s := by
  intro store
  induction store with
  | nil =>
    intro s h
    have h2 : ([] : List Pick) = s := Except.ok.inj h
    rw [← h2]
    exact List.Forall₂.nil
  | cons p rest ih =>
    intro s h
    unfold recalcPicksSeq at h
    by_cases hpg : (p.game_id == g.id) = true
    · rw [if_pos hpg] at h
      by_cases hf : failsAt p.id = true
      · rw [if_pos hf] at h
        exact absurd h (by simp)
      · rw [if_neg hf] at h
        cases hr : recalcPicksSeq g failsAt rest with
        | error e =>
          rw [hr] at h
          exact absurd h (by simp [Except.map])
        | ok ps =>
          rw [hr] at h
          have h2 : p.update_result (some g) :: ps = s := Except.ok.inj h
          rw [← h2]
          exact List.Forall₂.cons (by rw [if_pos hpg]) (ih ps hr)
    · rw [if_neg hpg] at h
      cases hr : recalcPicksSeq g failsAt rest with
      | error e =>
        rw [hr] at h
        exact absurd h (by simp [Except.map])
      | ok ps =>
        rw [hr] at h
        have h2 : p :: ps = s := Except.ok.inj h
        rw [← h2]
        refine List.Forall₂.cons ?_ (ih ps hr)
        rw [if_neg hpg]

/-- C2.  Phase 2's per-contest recomputation is all-or-nothing: if the
recalculation raises after any subset of the contest's picks, the
committed store is exactly the prior store (no pick of the contest shows
a changed outcome); on success every pick of the contest carries its
recomputed result and every other pick is untouched. -/
theorem phase2_all_or_nothing (games : List Game) (failsAt : Nat → Bool)
    (store : List Pick) (game_id : Nat) :
    ((∃ e, recalculate_for_game games failsAt store game_id =
        Except.error e) →
      run_recalculate games failsAt store game_id = store) ∧
    (∀ s g, findGame games game_id = some g →
      recalculate_for_game games failsAt store game_id = Except.ok s →
      List.Forall₂ (fun p q =>
        q = if p.game_id == g.id then p.update_result (some g) else p)
        store s) := by
  constructor
  · rintro ⟨e, he⟩
    unfold run_recalculate
    rw [he]
  · intro s g hg hok
    unfold recalculate_for_game at hok
    rw [hg] at hok
    exact recalcPicksSeq_ok g failsAt store s hok

/-- C2 witness: the second of two picks on game 1 fails to recompute —
the committed store equals the prior store. -/
theorem phase2_all_or_nothing_witness :
    run_recalculate [⟨1, 1, 1, 1, 2, 20, 10, true, true⟩]
      (fun id => id == 2)
      [⟨1, 7, 1, 1, none, 1, none, 0, 0⟩, ⟨2, 8, 1, 1, none, 2, none, 0, 0⟩]
      1 =
      [⟨1, 7, 1, 1, none, 1, none, 0, 0⟩,
        ⟨2, 8, 1, 1, none, 2, none, 0, 0⟩] :=
  (phase2_all_or_nothing [⟨1, 1, 1, 1, 2, 20, 10, true, true⟩]
    (fun id => id == 2)
    [⟨1, 7, 1, 1, none, 1, none, 0, 0⟩, ⟨2, 8, 1, 1, none, 2, none, 0, 0⟩]
    1).1 ⟨"recalculation failed", rfl⟩

/-- The result of one feed query in `DataSync._update_game_score`
(`app/utils/data_sync.py`): competitor scores (absent competitor →
`none`) and the completed flag.  A `none` record models a missing
`espn_id` or a request exception, where the method returns `False`
without touching the game. -/
structure FeedData where
  home_score : Option Int
  away_score : Option Int
  is_final : Bool
  deriving Repr, DecidableEq

/-- `DataSync._update_game_score`: compare the feed's scores and final
flag with the stored game; write them and report `True` only when
something changed. -/
def update_game_score (feed : Nat → Option FeedData) (g : Game) :
    Game × Bool :=
  match feed g.id with
  | none => (g, false)
  | some d =>
    let score_changed :=
      match d.home_score, d.away_score with
      | some h, some a => g.home_score != h || g.away_score != a
      | _, _ => false
    let status_changed := d.is_final != g.is_final
    if score_changed || status_changed then
      ({ g with home_score := d.home_score.getD g.home_score
                away_score := d.away_score.getD g.away_score
                is_final := d.is_final }, true)
    else (g, false)

/-- Phase 1 of `SchedulerService._sync_live_games` /
`_sync_game_status` (the per-game loop, with the loop state inlined):
update every scanned game from the feed and record the ids of games that
just transitioned to final (`if game.is_final and not was_final_before`,
checked only when the update reported a change). -/
def sync_phase1 (feed : Nat → Option FeedData) :
    List Game → List Game × List Nat
  | [] => ([], [])
  | g :: rest =>
    if (update_game_score feed g).2 && !g.is_final &&
        (update_game_score feed g).1.is_final then
      ((update_game_score feed g).1 :: (sync_phase1 feed rest).1,
        g.id :: (sync_phase1 feed rest).2)
    else
      ((update_game_score feed g).1 :: (sync_phase1 feed rest).1,
        (sync_phase1 feed rest).2)

/-- The `_sync_live_games` scan: `Game.status == "in_progress"`. -/
def live_scan (games : List Game) : List Game :=
  games.filter (fun g => g.game_status == "in_progress")

/-- The `_sync_game_status` scan: the week window
(`Game.week.in_([cw-1, cw, cw+1])`, the `weeks` argument), not final,
and starting within six hours (the `timeOk` argument models the
`game_time <= now + 6h` comparison). -/
def status_scan (games : List Game) (weeks : List Nat)
    (timeOk : Game → Bool) : List Game :=
  games.filter (fun g => weeks.contains g.week && !g.is_final && timeOk g)

/-- Every id phase 1 records comes from a scanned game that was not
final and whose feed update made it final. -/
theorem sync_phase1_ids (feed : Nat → Option FeedData) :
    ∀ scanned : List Game, ∀ id ∈ (sync_phase1 feed scanned).2,
      ∃ g ∈ scanned, g.id = id ∧ g.is_final = false ∧
        (update_game_score feed g).1.is_final = true := by
  intro scanned
  induction scanned with
  | nil =>
    intro id h
    exact absurd h (List.not_mem_nil id)
  | cons g rest ih =>
    intro id h
    unfold sync_phase1 at h
    by_cases hc : ((update_game_score feed g).2 && !g.is_final &&
        (update_game_score feed g).1.is_final) = true
    · rw [if_pos hc] at h
      simp only [Bool.and_eq_true, Bool.not_eq_true'] at hc
      rcases List.mem_cons.mp h with rfl | h2
      · exact ⟨g, List.mem_cons_self g rest, rfl, hc.1.2, hc.2⟩
      · obtain ⟨g2, hmem, hrest⟩ := ih id h2
        exact ⟨g2, List.mem_cons_of_mem g hmem, hrest⟩
    · rw [if_neg hc] at h
      obtain ⟨g2, hmem, hrest⟩ := ih id h
      exact ⟨g2, List.mem_cons_of_mem g hmem, hrest⟩

/-- Scanned live games are in-progress, hence not final. -/
theorem live_scan_not_final (games : List Game) :
    ∀ g ∈ live_scan games, g ∈ games ∧ g.is_final = false := by
  intro g h
  obtain ⟨hmem, hpred⟩ := List.mem_filter.mp h
  refine ⟨hmem, ?_⟩
  cases hgf : g.is_final
  · rfl
  · exfalso
    unfold Game.game_status at hpred
    rw [if_pos hgf] at hpred
    exact absurd hpred (by decide)

/-- Scanned status games carry `is_final = False` in the query filter. -/
theorem status_scan_not_final (games : List Game) (weeks : List Nat)
    (timeOk : Game → Bool) :
    ∀ g ∈ status_scan games weeks timeOk,
      g ∈ games ∧ g.is_final = false := by
  intro g h
  obtain ⟨hmem, hpred⟩ := List.mem_filter.mp h
  simp only [Bool.and_eq_true, Bool.not_eq_true'] at hpred
  exact ⟨hmem, hpred.1.2⟩

/-- C9.  Phase 2 recomputes picks only for contests whose final flag
transitioned from false to true during that tick's phase 1: every id the
tick passes to recalculation belongs to a game scanned as not-final that
the feed update finalized, and (given distinct game ids) a game already
final before the tick is never among them — for both the live-games and
the game-status job. -/
theorem phase2_only_newly_final (feed : Nat → Option FeedData)
    (games : List Game) (weeks : List Nat) (timeOk : Game → Bool) :
    (∀ id ∈ (sync_phase1 feed (status_scan games weeks timeOk)).2,
      ∃ g ∈ games, g.id = id ∧ g.is_final = false ∧
        (update_game_score feed g).1.is_final = true) ∧
    (∀ id ∈ (sync_phase1 feed (live_scan games)).2,
      ∃ g ∈ games, g.id = id ∧ g.is_final = false ∧
        (update_game_score feed g).1.is_final = true) ∧
    ((games.map Game.id).Nodup →
      ∀ g ∈ games, g.is_final = true →
        g.id ∉ (sync_phase1 feed (status_scan games weeks timeOk)).2 ∧
        g.id ∉ (sync_phase1 feed (live_scan games)).2) := by
  have hstatus : ∀ id ∈ (sync_phase1 feed
      (status_scan games weeks timeOk)).2,
      ∃ g ∈ games, g.id = id ∧ g.is_final = false ∧
        (update_game_score feed g).1.is_final = true := by
    intro id h
    obtain ⟨g, hmem, hid, hnf, hfin⟩ := sync_phase1_ids feed _ id h
    obtain ⟨hmem2, _⟩ := status_scan_not_final games weeks timeOk g hmem
    exact ⟨g, hmem2, hid, hnf, hfin⟩
  have hlive : ∀ id ∈ (sync_phase1 feed (live_scan games)).2,
      ∃ g ∈ games, g.id = id ∧ g.is_final = false ∧
        (update_game_score feed g).1.is_final = true := by
    intro id h
    obtain ⟨g, hmem, hid, hnf, hfin⟩ := sync_phase1_ids feed _ id h
    obtain ⟨hmem2, _⟩ := live_scan_not_final games g hmem
    exact ⟨g, hmem2, hid, hnf, hfin⟩
  refine ⟨hstatus, hlive, ?_⟩
  intro hnodup g hmem hfin
  constructor
  · intro hin
    obtain ⟨g2, hmem2, hid2, hnf2, _⟩ := hstatus g.id hin
    have : g2 = g := nodup_map_mem_inj hnodup hmem2 hmem hid2
    rw [this] at hnf2
    rw [hfin] at hnf2
    exact absurd hnf2 (by decide)
  · intro hin
    obtain ⟨g2, hmem2, hid2, hnf2, _⟩ := hlive g.id hin
    have : g2 = g := nodup_map_mem_inj hnodup hmem2 hmem hid2
    rw [this] at hnf2
    rw [hfin] at hnf2
    exact absurd hnf2 (by decide)

/-- C9 witness: game 1 is live and finalized by the feed, game 2 was
already final — game 2's id is in neither job's phase-2 list. -/
theorem phase2_only_newly_final_witness :
    (([⟨1, 1, 1, 1, 2, 14, 14, false, true⟩,
       ⟨2, 1, 1, 3, 4, 10, 7, true, true⟩] : List Game).map
        Game.id).Nodup ∧
    (2 ∉ (sync_phase1
        (fun id => if id == 1 then
          some (⟨some 21, some 14, true⟩ : FeedData) else none)
        (status_scan [⟨1, 1, 1, 1, 2, 14, 14, false, true⟩,
          ⟨2, 1, 1, 3, 4, 10, 7, true, true⟩] [1] (fun _ => true))).2 ∧
      2 ∉ (sync_phase1
        (fun id => if id == 1 then
          some (⟨some 21, some 14, true⟩ : FeedData) else none)
        (live_scan [⟨1, 1, 1, 1, 2, 14, 14, false, true⟩,
          ⟨2, 1, 1, 3, 4, 10, 7, true, true⟩])).2) :=
  ⟨by decide,
    (phase2_only_newly_final
      (fun id => if id == 1 then
        some (⟨some 21, some 14, true⟩ : FeedData) else none)
      [⟨1, 1, 1, 1, 2, 14, 14, false, true⟩,
        ⟨2, 1, 1, 3, 4, 10, 7, true, true⟩] [1]
      (fun _ => true)).2.2 (by decide)
      ⟨2, 1, 1, 3, 4, 10, 7, true, true⟩
      (by decide) rfl⟩


/-- C6 witness: one-entry leaderboard, empty prior store — the second
call leaves the store as the first call's result. -/
theorem create_snapshot_idempotent_witness :
    (create_snapshot
      (create_snapshot [] [⟨1, 3, 2, 0, 3, 7, 50⟩] 1 none).1
      [⟨1, 3, 2, 0, 3, 7, 50⟩] 1 none).1 =
      (create_snapshot [] [⟨1, 3, 2, 0, 3, 7, 50⟩] 1 none).1 :=
  (create_snapshot_idempotent [] [⟨1, 3, 2, 0, 3, 7, 50⟩] 1 none).1

end Pickem
